import Mathlib

/-!
Verification of the durable-step workflow executor of this repository
(src/cli/effect/lib/utils/workflow.ts and its backoff module).

Shallow embedding conventions:
* JavaScript numbers and Effect Durations are modelled as rationals (ℚ),
  measured in milliseconds; Duration.decode / Duration.toMillis are the
  identity under this convention, and Duration.seconds 1 is 1000.
* A value of type T that may be the JavaScript value undefined is modelled
  as Option V, with none standing for undefined.
* A JavaScript null is modelled as Option.none.
* The random source (a nullary function returning a float in [0,1)) is
  modelled by passing the value it would return as an explicit argument;
  for the retry loop, as a stream of such values.
* Effects are modelled by explicit state passing; fallible operations
  return Except.
-/

/-! ## Backoff module (backoff.ts) -/

/-- The three jitter kinds of JitterConfig.type. -/
inductive JitterType
  | full
  | equal
  | decorrelated
deriving DecidableEq, Repr

/-- JitterConfig: a jitter type plus an optional factor. -/
structure JitterConfig where
  type : JitterType
  factor : Option ℚ
deriving DecidableEq, Repr

/-- The jitter field of a backoff config: absent, a boolean, or a JitterConfig. -/
inductive JitterOpt
  | undef
  | bool (b : Bool)
  | config (c : JitterConfig)
deriving DecidableEq, Repr

/-- BackoffConfig: the closed variant Exponential | Linear | Constant.
Optional fields are Options; durations are rational milliseconds. -/
inductive BackoffConfig
  | Exponential (base : ℚ) (factor : Option ℚ) (max : Option ℚ) (jitter : JitterOpt)
  | Linear (initial : ℚ) (increment : ℚ) (max : Option ℚ) (jitter : JitterOpt)
  | Constant (duration : ℚ) (jitter : JitterOpt)
deriving DecidableEq, Repr

/-- The jitter field of a BackoffConfig, common to all three variants. -/
def BackoffConfig.jitter : BackoffConfig → JitterOpt
  | .Exponential _ _ _ j => j
  | .Linear _ _ _ j => j
  | .Constant _ j => j

/-- calculateBaseDelay: the pre-cap, pre-jitter delay.
Exponential is base * factor^attempt with factor defaulting to 2;
Linear is initial + attempt * increment; Constant ignores attempt. -/
def calculateBaseDelay : BackoffConfig → Nat → ℚ
  | .Exponential base factor _ _, attempt => base * (factor.getD 2) ^ attempt
  | .Linear initial increment _ _, attempt => initial + (attempt : ℚ) * increment
  | .Constant duration _, _ => duration

/-- applyMax: cap the delay at the max field when it is present
(Constant has no max field). -/
def applyMax : BackoffConfig → ℚ → ℚ
  | .Exponential _ _ (some m) _, delay => min delay m
  | .Linear _ _ (some m) _, delay => min delay m
  | _, delay => delay

/-- applyJitter: no jitter when the jitter field is falsy (absent or false);
a bare true means full jitter; otherwise dispatch on the JitterConfig type.
The argument r is the value returned by the single random() call. -/
def applyJitter (config : BackoffConfig) (delay : ℚ) (r : ℚ) : ℚ :=
  match config.jitter with
  | .undef => delay
  | .bool false => delay
  | .bool true => r * delay
  | .config jc =>
    match jc.type with
    | .full => r * delay
    | .equal => delay / 2 + r * (delay / 2)
    | .decorrelated => r * delay * (jc.factor.getD 3)

/-- calculateDelay: base delay, then the max cap, then jitter, in that order. -/
def calculateDelay (config : BackoffConfig) (attempt : Nat) (r : ℚ) : ℚ :=
  applyJitter config (applyMax config (calculateBaseDelay config attempt)) r

/-! ## Workflow state (workflow.ts, createWorkflowContext) -/

/-- StepError: wraps a step operation failure with the step name, the cause
and the attempt number (the code always passes attempt 0). -/
structure StepError (E : Type) where
  stepName : String
  cause : E
  attempt : Nat
deriving DecidableEq, Repr

/-- StepTimeoutError: carries the step name (the code always passes the
placeholder "unknown") and the configured timeout in milliseconds. -/
structure StepTimeoutError where
  stepName : String
  timeoutMs : ℚ
deriving DecidableEq, Repr

/-- RetryExhaustedError: carries the step name (the code always passes the
placeholder "unknown"), the number of attempts made, and the last underlying
error (none models the JavaScript null it is initialised to). -/
structure RetryExhaustedError (E : Type) where
  stepName : String
  attempts : Nat
  lastError : Option E
deriving DecidableEq, Repr

/-- WorkflowState: completed step names in completion order, the cached
results map (a JavaScript Map; an entry whose value is none models a stored
undefined), and the attempt counters map. Step result values live in Option V
because a step body may succeed with undefined. -/
structure WorkflowState (V : Type) where
  completedSteps : List String
  stepResults : List (String × Option V)
  stepAttempts : List (String × Nat)
deriving DecidableEq, Repr

/-- The fresh state createWorkflowContext builds at the start of a run. -/
def initialWorkflowState (V : Type) : WorkflowState V :=
  { completedSteps := [], stepResults := [], stepAttempts := [] }

/-- JavaScript Map.set: overwrite the existing entry in place, or append. -/
def setAssoc {α : Type} (l : List (String × α)) (k : String) (v : α) :
    List (String × α) :=
  match l with
  | [] => [(k, v)]
  | (k', v') :: t => if k' = k then (k, v) :: t else (k', v') :: setAssoc t k v

/-- hasCompleted: membership test on the completedSteps list. -/
def hasCompleted {V : Type} (s : WorkflowState V) (stepName : String) : Prop :=
  stepName ∈ s.completedSteps

instance {V : Type} (s : WorkflowState V) (n : String) :
    Decidable (hasCompleted s n) := by
  unfold hasCompleted
  infer_instance

/-- markCompleted: append the name to completedSteps (unconditionally). -/
def markCompleted {V : Type} (s : WorkflowState V) (stepName : String) :
    WorkflowState V :=
  { s with completedSteps := s.completedSteps ++ [stepName] }

/-- getStepResult: Map.get followed by the cast to T | undefined — a missing
entry and a stored undefined both come back as undefined (none). -/
def getStepResult {V : Type} (s : WorkflowState V) (stepName : String) :
    Option V :=
  (s.stepResults.lookup stepName).join

/-- setStepResult: Map.set on the results map. -/
def setStepResult {V : Type} (s : WorkflowState V) (stepName : String)
    (result : Option V) : WorkflowState V :=
  { s with stepResults := setAssoc s.stepResults stepName result }

namespace Workflow

/-- Workflow.step: if the name is completed and a cached (defined) result
exists, return it without running the operation; otherwise run the operation,
and on success record the result and mark the name completed, on failure wrap
the error in a StepError and leave the state untouched. The operation is a
pure outcome (the same on every invocation); the middle component of the
result counts how many times the operation was invoked by this call. -/
def step {V E : Type} (name : String) (op : Except E (Option V))
    (s : WorkflowState V) :
    WorkflowState V × Nat × Except (StepError E) (Option V) :=
  if hasCompleted s name ∧ (getStepResult s name).isSome then
    (s, 0, .ok (getStepResult s name))
  else
    match op with
    | .error e => (s, 1, .error ⟨name, e, 0⟩)
    | .ok v => (markCompleted (setStepResult s name v) name, 1, .ok v)

end Workflow

/-- A run fragment: fold Workflow.step over a list of (name, operation)
calls, threading the state. -/
def runSteps {V E : Type} (calls : List (String × Except E (Option V)))
    (s : WorkflowState V) : WorkflowState V :=
  match calls with
  | [] => s
  | (n, op) :: t => runSteps t (Workflow.step n op s).1

/-- The run invariant behind the ordered-set reading of completedSteps:
no duplicate names, and every completed name has a defined cached result.
It holds for the fresh state and is preserved by step calls whose
operations never succeed with undefined. -/
def goodState {V : Type} (s : WorkflowState V) : Prop :=
  s.completedSteps.Nodup ∧
    ∀ n ∈ s.completedSteps, (getStepResult s n).isSome = true

/-! ## Retry (workflow.ts, Workflow.retry) -/

/-- The delay field of RetryOptions: absent, a function of the attempt
index, a BackoffConfig, or a fixed duration (DurationInput, in ms). -/
inductive RetryDelay
  | undef
  | fn (f : Nat → ℚ)
  | backoff (c : BackoffConfig)
  | fixed (d : ℚ)

/-- isBackoffConfig: the tag test that picks the BackoffConfig branch in
the delay dispatch (the function branch is tested before it, as in the
code's if chain). -/
def isBackoffConfig : RetryDelay → Bool
  | .backoff _ => true
  | _ => false

/-- The delay computation of the retry loop, taken after attempt has been
incremented: absent means 1 second, a function is called with attempt - 1,
a BackoffConfig goes through calculateDelay at attempt - 1 (with the default
random source, modelled by the stream rand), anything else is a fixed
duration. -/
def computeRetryDelay (delay : RetryDelay) (attempt : Nat) (rand : Nat → ℚ) : ℚ :=
  match delay with
  | .undef => 1000
  | .fn f => f (attempt - 1)
  | .backoff c => calculateDelay c (attempt - 1) (rand (attempt - 1))
  | .fixed d => d

deriving instance DecidableEq for Except

/-- The maxDuration check of the retry loop: when maxDuration is set,
compare the elapsed wall time against it; when it is not set, the check is
skipped (and Date.now is not read). -/
def durationExceeded (maxDur : Option ℚ) (elapsed : ℚ) : Bool :=
  match maxDur with
  | some md => md ≤ elapsed
  | none => false

/-- The observable outcome of one run of a retry-wrapped operation: how many
times the operation was invoked, the sleeps performed between attempts (in
chronological order, in ms), and the final result. In the code the loop only
ever fails with the exhaustion error (per-attempt failures are captured by
Effect.either), so the error channel is RetryExhaustedError. -/
structure RetryTrace (T E : Type) where
  invocations : Nat
  sleeps : List ℚ
  result : Except (RetryExhaustedError E) T
deriving DecidableEq, Repr

namespace Workflow

/-- One iteration of the retry while loop, with fuel bounding the recursion
(the loop guard attempt < maxAttempts keeps fuel from being the deciding
exit as long as fuel starts at maxAttempts). Arguments after rand: remaining
fuel, the attempt counter, the number of invocations so far (indexing op,
whose outcome may differ per invocation), the index of the next Date.now()
reading (clock 0 is startTime; the clock is read again only when maxDur is
set), and the current lastError (initially the JavaScript null, i.e. none). -/
def retryGo {T E : Type} (maxAttempts : Nat) (delay : RetryDelay)
    (maxDur : Option ℚ) (op : Nat → Except E T) (clock : Nat → ℚ)
    (rand : Nat → ℚ) :
    Nat → Nat → Nat → Nat → Option E → RetryTrace T E
  | 0, attempt, _, _, lastError =>
    ⟨0, [], .error ⟨"unknown", attempt, lastError⟩⟩
  | fuel + 1, attempt, inv, ck, lastError =>
    if attempt < maxAttempts then
      match op inv with
      | .ok v => ⟨1, [], .ok v⟩
      | .error e =>
        let attempt' := attempt + 1
        if maxAttempts ≤ attempt' then
          ⟨1, [], .error ⟨"unknown", attempt', some e⟩⟩
        else if durationExceeded maxDur (clock ck - clock 0) then
          ⟨1, [], .error ⟨"unknown", attempt', some e⟩⟩
        else
          let d := computeRetryDelay delay attempt' rand
          let t := retryGo maxAttempts delay maxDur op clock rand fuel
            attempt' (inv + 1) (ck + (if maxDur.isSome then 1 else 0)) (some e)
          ⟨t.invocations + 1, d :: t.sleeps, t.result⟩
    else
      ⟨0, [], .error ⟨"unknown", attempt, lastError⟩⟩

/-- Workflow.retry: run the loop from attempt 0, invocation 0, clock index 1
(clock 0 was consumed as startTime) and lastError null. -/
def retryRun {T E : Type} (maxAttempts : Nat) (delay : RetryDelay)
    (maxDur : Option ℚ) (op : Nat → Except E T) (clock : Nat → ℚ)
    (rand : Nat → ℚ) : RetryTrace T E :=
  retryGo maxAttempts delay maxDur op clock rand maxAttempts 0 0 1 none

end Workflow

/-! ## Timeout (workflow.ts, Workflow.timeout) -/

/-- Modelled from the spec: the external Effect.timeoutFail collaborator
used by Workflow.timeout (TimeoutGuard, spec section 4.4) races the
operation against the deadline; the operation's logical running time
opTime (ms) decides the race. If the operation finishes before the
deadline its outcome passes through; otherwise the caller gets the
onTimeout error. The timeout error and the operation's own error are
kept apart with a sum. -/
def effectTimeoutFail {T E F : Type} (opTime : ℚ) (res : Except E T)
    (durMs : ℚ) (onTimeout : Unit → F) : Except (F ⊕ E) T :=
  if opTime < durMs then
    match res with
    | .ok v => .ok v
    | .error e => .error (.inr e)
  else
    .error (.inl (onTimeout ()))

namespace Workflow

/-- Workflow.timeout: decode the configured duration to ms and delegate to
Effect.timeoutFail with a StepTimeoutError (step name "unknown", the
configured ms) as the timeout error. -/
def timeoutW {T E : Type} (duration : ℚ) (opTime : ℚ) (res : Except E T) :
    Except (StepTimeoutError ⊕ E) T :=
  effectTimeoutFail opTime res duration (fun _ => ⟨"unknown", duration⟩)

end Workflow

/-! ## Helper lemmas -/

theorem setAssoc_lookup_self {α : Type} (l : List (String × α)) (k : String)
    (v : α) : (setAssoc l k v).lookup k = some v := by
  induction l with
  | nil => simp [setAssoc, List.lookup]
  | cons p t ih =>
    obtain ⟨k', v'⟩ := p
    by_cases h : k' = k
    · simp [setAssoc, h, List.lookup]
    · have hb : (k == k') = false := by
        simp only [beq_eq_false_iff_ne, ne_eq]
        exact fun hh => h hh.symm
      simp [setAssoc, h, List.lookup, hb, ih]

theorem setAssoc_lookup_ne {α : Type} (l : List (String × α)) (k k' : String)
    (v : α) (h : k' ≠ k) : (setAssoc l k v).lookup k' = l.lookup k' := by
  have hb : (k' == k) = false := beq_eq_false_iff_ne.mpr h
  induction l with
  | nil => simp [setAssoc, List.lookup, hb]
  | cons p t ih =>
    obtain ⟨k₀, v₀⟩ := p
    by_cases h₀ : k₀ = k
    · subst h₀
      simp [setAssoc, List.lookup, hb]
    · simp only [setAssoc, if_neg h₀]
      cases hc : (k' == k₀) <;> simp [List.lookup, hc, ih]

theorem getStepResult_set_self {V : Type} (s : WorkflowState V) (n : String)
    (v : Option V) : getStepResult (setStepResult s n v) n = v := by
  simp [getStepResult, setStepResult, setAssoc_lookup_self, Option.join]

theorem getStepResult_set_ne {V : Type} (s : WorkflowState V) (n m : String)
    (v : Option V) (h : m ≠ n) :
    getStepResult (setStepResult s n v) m = getStepResult s m := by
  simp [getStepResult, setStepResult, setAssoc_lookup_ne _ _ _ _ h]

theorem getStepResult_mark {V : Type} (s : WorkflowState V) (n m : String) :
    getStepResult (markCompleted s n) m = getStepResult s m := by
  simp [getStepResult, markCompleted]

theorem retryGo_fail_noDur {T E : Type} (m : Nat) (delay : RetryDelay)
    (e : Nat → E) (clock rand : Nat → ℚ) :
    ∀ (fuel attempt inv ck : Nat) (le : Option E), attempt + fuel = m →
      Workflow.retryGo (T := T) m delay none (fun k => Except.error (e k))
          clock rand fuel attempt inv ck le =
        if fuel = 0 then ⟨0, [], Except.error ⟨"unknown", attempt, le⟩⟩
        else
          ⟨fuel,
           (List.range (fuel - 1)).map
             (fun j => computeRetryDelay delay (attempt + j + 1) rand),
           Except.error ⟨"unknown", m, some (e (inv + fuel - 1))⟩⟩ := by
  intro fuel
  induction fuel with
  | zero =>
    intro attempt inv ck le _
    simp [Workflow.retryGo]
  | succ fuel ih =>
    intro attempt inv ck le hm
    have hlt : attempt < m := by omega
    by_cases hf : fuel = 0
    · subst hf
      have hge : m ≤ attempt + 1 := by omega
      have hm1 : m = attempt + 1 := by omega
      subst hm1
      simp [Workflow.retryGo, hlt, hge]
    · have hge : ¬ m ≤ attempt + 1 := by omega
      have ht := ih (attempt + 1) (inv + 1) ck (some (e inv)) (by omega)
      rw [if_neg hf] at ht
      simp only [Workflow.retryGo, if_pos hlt, if_neg hge, durationExceeded,
        Option.isSome_none, Bool.false_eq_true, if_false, Nat.add_zero, ht,
        if_neg (Nat.succ_ne_zero fuel)]
      obtain ⟨fuel2, rfl⟩ := Nat.exists_eq_succ_of_ne_zero hf
      simp only [RetryTrace.mk.injEq, Nat.add_sub_cancel]
      refine ⟨trivial, ?_, ?_⟩
      · rw [List.range_succ_eq_map]
        simp only [List.map_cons, List.map_map, Nat.succ_sub_one, Nat.add_zero,
          List.cons.injEq, true_and]
        apply List.map_congr_left
        intro j _
        have hj : attempt + 1 + j + 1 = attempt + (j + 1) + 1 := by omega
        simp [Function.comp, hj]
      · have hj : inv + 1 + fuel2.succ - 1 = inv + (fuel2.succ + 1) - 1 := by
          omega
        rw [hj]

theorem retryGo_fail_result {T E : Type} (m : Nat) (delay : RetryDelay)
    (maxDur : Option ℚ) (e : Nat → E) (clock rand : Nat → ℚ) :
    ∀ (fuel attempt inv ck : Nat) (le : Option E),
      (Workflow.retryGo (T := T) m delay maxDur (fun k => Except.error (e k))
          clock rand fuel attempt inv ck le).result =
        Except.error
          ⟨"unknown",
           attempt + (Workflow.retryGo (T := T) m delay maxDur
               (fun k => Except.error (e k)) clock rand fuel attempt inv ck
               le).invocations,
           if (Workflow.retryGo (T := T) m delay maxDur
               (fun k => Except.error (e k)) clock rand fuel attempt inv ck
               le).invocations = 0 then le
           else
             some (e (inv + (Workflow.retryGo (T := T) m delay maxDur
                 (fun k => Except.error (e k)) clock rand fuel attempt inv ck
                 le).invocations - 1))⟩ := by
  intro fuel
  induction fuel with
  | zero =>
    intro attempt inv ck le
    simp [Workflow.retryGo]
  | succ fuel ih =>
    intro attempt inv ck le
    by_cases hlt : attempt < m
    · by_cases hge : m ≤ attempt + 1
      · simp [Workflow.retryGo, hlt, hge]
      · by_cases hd : durationExceeded maxDur (clock ck - clock 0) = true
        · simp [Workflow.retryGo, hlt, hge, hd]
        · rw [Bool.not_eq_true] at hd
          have ht := ih (attempt + 1) (inv + 1)
            (ck + if maxDur.isSome then 1 else 0) (some (e inv))
          simp only [Workflow.retryGo, if_pos hlt, if_neg hge, hd,
            Bool.false_eq_true, if_false, Nat.succ_ne_zero, Nat.add_eq, ht]
          generalize (Workflow.retryGo (T := T) m delay maxDur
              (fun k => Except.error (e k)) clock rand fuel (attempt + 1)
              (inv + 1) (ck + if maxDur.isSome then 1 else 0)
              (some (e inv))).invocations = q
          rcases Nat.eq_zero_or_pos q with hq | hq
          · simp [hq]
          · have h1 : attempt + 1 + q = attempt + (q + 1) := by omega
            have h2 : inv + 1 + q - 1 = inv + (q + 1) - 1 := by omega
            simp [Nat.pos_iff_ne_zero.mp hq, h1, h2]
    · simp [Workflow.retryGo, hlt]

theorem step_completedSteps_append {V E : Type} (s : WorkflowState V)
    (n : String) (op : Except E (Option V)) :
    (Workflow.step n op s).1.completedSteps = s.completedSteps ∨
      (Workflow.step n op s).1.completedSteps = s.completedSteps ++ [n] := by
  unfold Workflow.step
  by_cases h : hasCompleted s n ∧ (getStepResult s n).isSome = true
  · simp [h]
  · cases op with
    | error e => simp [h]
    | ok v => simp [h, markCompleted, setStepResult]

theorem step_preserves_goodState {V E : Type} (s : WorkflowState V)
    (n : String) (op : Except E (Option V)) (hop : op ≠ Except.ok none)
    (hs : goodState s) : goodState (Workflow.step n op s).1 := by
  unfold Workflow.step
  by_cases h : hasCompleted s n ∧ (getStepResult s n).isSome = true
  · simpa [h] using hs
  · cases op with
    | error e => simpa [h] using hs
    | ok v =>
      cases v with
      | none => exact absurd rfl hop
      | some w =>
        have hnot : n ∉ s.completedSteps := by
          intro hmem
          exact h ⟨hmem, hs.2 n hmem⟩
        simp only [h, if_false, if_neg h]
        constructor
        · simp [markCompleted, setStepResult, List.nodup_append, hnot, hs.1]
        · intro x hx
          simp only [markCompleted, setStepResult, List.mem_append,
            List.mem_singleton] at hx
          rcases hx with hx | hx
          · by_cases hxn : x = n
            · subst hxn
              rw [show getStepResult (markCompleted (setStepResult s x (some w)) x) x
                    = getStepResult (setStepResult s x (some w)) x from
                  getStepResult_mark _ _ _,
                getStepResult_set_self]
              rfl
            · rw [show getStepResult (markCompleted (setStepResult s n (some w)) n) x
                    = getStepResult (setStepResult s n (some w)) x from
                  getStepResult_mark _ _ _,
                getStepResult_set_ne _ _ _ _ hxn]
              exact hs.2 x hx
          · subst hx
            rw [show getStepResult (markCompleted (setStepResult s x (some w)) x) x
                  = getStepResult (setStepResult s x (some w)) x from
                getStepResult_mark _ _ _,
              getStepResult_set_self]
            rfl

theorem runSteps_preserves_goodState {V E : Type}
    (calls : List (String × Except E (Option V))) :
    ∀ s : WorkflowState V, goodState s →
      (∀ p ∈ calls, p.2 ≠ Except.ok none) → goodState (runSteps calls s) := by
  induction calls with
  | nil => intro s hs _; exact hs
  | cons p t ih =>
    intro s hs hops
    obtain ⟨n, op⟩ := p
    exact ih _ (step_preserves_goodState s n op (hops (n, op) (by simp)) hs)
      (fun q hq => hops q (by simp [hq]))

/-! ## Claims -/

/-- C1 counterexample: when the operation succeeds with undefined, the second
step call with the same name in the same run invokes the operation again (count
1, so two invocations in total), refuting at-most-once execution as stated. -/
theorem step_memoization_undefined_cex :
    (Workflow.step (E := Unit) "x" (Except.ok (none : Option ℕ))
        (initialWorkflowState ℕ)).2.1 = 1 ∧
    (Workflow.step (E := Unit) "x" (Except.ok (none : Option ℕ))
        (Workflow.step (E := Unit) "x" (Except.ok none)
          (initialWorkflowState ℕ)).1).2.1 = 1 := by
  decide

/-- C1 (amended): for a step name not yet completed in the run, if the
operation succeeds with a defined (non-undefined) value, the first step call
invokes the operation exactly once, and the second call with the same name
invokes it zero times and returns the cached value. -/
theorem step_memoizes_defined {V E : Type} (s : WorkflowState V)
    (name : String) (v : V) (h : name ∉ s.completedSteps) :
    (Workflow.step (E := E) name (Except.ok (some v)) s).2.1 = 1 ∧
    (Workflow.step (E := E) name (Except.ok (some v))
        (Workflow.step (E := E) name (Except.ok (some v)) s).1).2.1 = 0 ∧
    (Workflow.step (E := E) name (Except.ok (some v))
        (Workflow.step (E := E) name (Except.ok (some v)) s).1).2.2 =
      Except.ok (some v) := by
  have hnc : ¬ (hasCompleted s name ∧ (getStepResult s name).isSome = true) :=
    fun hc => h hc.1
  have h1 : Workflow.step (E := E) name (Except.ok (some v)) s =
      (markCompleted (setStepResult s name (some v)) name, 1,
        Except.ok (some v)) := by
    simp [Workflow.step, hnc]
  have hcached :
      getStepResult (markCompleted (setStepResult s name (some v)) name) name
        = some v := by
    rw [getStepResult_mark, getStepResult_set_self]
  have hcomp :
      hasCompleted (markCompleted (setStepResult s name (some v)) name) name := by
    simp [hasCompleted, markCompleted]
  refine ⟨by rw [h1], ?_, ?_⟩ <;> rw [h1] <;>
    simp [Workflow.step, hcomp, hcached]

/-- C1 witness at a concrete input. -/
theorem step_memoizes_defined_witness :
    ("x" ∉ (initialWorkflowState ℕ).completedSteps) ∧
    ((Workflow.step (E := Unit) "x" (Except.ok (some 42))
        (initialWorkflowState ℕ)).2.1 = 1 ∧
     (Workflow.step (E := Unit) "x" (Except.ok (some 42))
        (Workflow.step (E := Unit) "x" (Except.ok (some 42))
          (initialWorkflowState ℕ)).1).2.1 = 0 ∧
     (Workflow.step (E := Unit) "x" (Except.ok (some 42))
        (Workflow.step (E := Unit) "x" (Except.ok (some 42))
          (initialWorkflowState ℕ)).1).2.2 = Except.ok (some 42)) :=
  ⟨by decide,
   step_memoizes_defined (initialWorkflowState ℕ) "x" 42 (by decide)⟩

/-- C2: retry with maxAttempts 3 and default options on an always-failing
operation invokes it exactly 3 times, performs exactly 2 inter-attempt sleeps
(no trailing delay), and fails with a RetryExhaustedError whose attempts field
is 3 and whose lastError is the third failure. -/
theorem retry_maxAttempts_three {T E : Type} (e : Nat → E)
    (clock rand : Nat → ℚ) :
    Workflow.retryRun (T := T) 3 .undef none (fun k => Except.error (e k))
        clock rand =
      ⟨3, [1000, 1000], Except.error ⟨"unknown", 3, some (e 2)⟩⟩ := rfl

/-- C3: for an Exponential config with base b, factor f and max m, without
jitter, calculateDelay at retry index n is min(b * f^n, m); with full jitter
the jitter multiplies the already-capped value (cap before jitter); and the
two literal instances base 1000, factor 2, max 10000 at attempts 0 and 4. -/
theorem calculateDelay_exponential_capped (b f m : ℚ) (n : Nat) (r : ℚ) :
    calculateDelay (.Exponential b (some f) (some m) .undef) n r
        = min (b * f ^ n) m ∧
    calculateDelay (.Exponential b (some f) (some m)
        (.config ⟨.full, none⟩)) n r = r * min (b * f ^ n) m ∧
    calculateDelay (.Exponential 1000 (some 2) (some 10000) .undef) 0 r
        = 1000 ∧
    calculateDelay (.Exponential 1000 (some 2) (some 10000) .undef) 4 r
        = 10000 := by
  refine ⟨?_, ?_, ?_, ?_⟩ <;>
    norm_num [calculateDelay, calculateBaseDelay, applyMax, applyJitter,
      BackoffConfig.jitter, min_def]

/-- C4 counterexample: a retry-wrapped operation exhausting inside a step
named x produces a RetryExhaustedError whose stepName is the placeholder
"unknown", not the step's name — retry never learns the step name. -/
theorem retry_stepName_unknown_cex :
    ((Workflow.step "x"
        ((Workflow.retryRun (T := Option ℕ) 1 .undef none
            (fun _ => Except.error "boom") (fun _ => 0) (fun _ => 0)).result)
        (initialWorkflowState ℕ)).2.2 =
      Except.error ⟨"x", ⟨"unknown", 1, some "boom"⟩, 0⟩) ∧
    ("unknown" : String) ≠ "x" := by
  decide

/-- C4 (amended): whenever retry exhausts (by attempts or by the maxDuration
budget) on an always-failing operation, the RetryExhaustedError carries a
stepName field that is always the placeholder "unknown", an attempts field
equal to the number of invocations actually made, and the last underlying
error (none only when no attempt ran); attempts and lastError are never
dropped. -/
theorem retry_exhaustion_payload {T E : Type} (m : Nat) (delay : RetryDelay)
    (maxDur : Option ℚ) (e : Nat → E) (clock rand : Nat → ℚ) :
    (Workflow.retryRun (T := T) m delay maxDur (fun k => Except.error (e k))
        clock rand).result =
      Except.error
        ⟨"unknown",
         (Workflow.retryRun (T := T) m delay maxDur
             (fun k => Except.error (e k)) clock rand).invocations,
         if (Workflow.retryRun (T := T) m delay maxDur
             (fun k => Except.error (e k)) clock rand).invocations = 0
         then none
         else
           some (e ((Workflow.retryRun (T := T) m delay maxDur
               (fun k => Except.error (e k)) clock rand).invocations - 1))⟩ := by
  simpa [Workflow.retryRun] using
    retryGo_fail_result (T := T) m delay maxDur e clock rand m 0 0 1 none

/-- C5: when a step operation fails (the cache did not serve the call), the
failure is propagated as a StepError carrying the step name and the cause,
the WorkflowState is returned unchanged (nothing marked completed, nothing
cached), and a later call with the same name invokes the operation again. -/
theorem step_failure_leaves_state {V E : Type} (s : WorkflowState V)
    (name : String) (e : E)
    (h : ¬ (hasCompleted s name ∧ (getStepResult s name).isSome = true)) :
    Workflow.step name (Except.error e) s
        = (s, 1, Except.error ⟨name, e, 0⟩) ∧
    (Workflow.step name (Except.error e)
        (Workflow.step (V := V) name (Except.error e) s).1).2.1 = 1 := by
  have h1 : Workflow.step name (Except.error e) s
      = (s, 1, Except.error ⟨name, e, 0⟩) := by
    simp [Workflow.step, h]
  exact ⟨h1, by rw [h1]; simp [Workflow.step, h]⟩

/-- C5 witness at a concrete input. -/
theorem step_failure_leaves_state_witness :
    (¬ (hasCompleted (initialWorkflowState ℕ) "x" ∧
        (getStepResult (initialWorkflowState ℕ) "x").isSome = true)) ∧
    (Workflow.step "x" (Except.error (37 : ℕ)) (initialWorkflowState ℕ)
        = (initialWorkflowState ℕ, 1, Except.error ⟨"x", 37, 0⟩) ∧
     (Workflow.step "x" (Except.error (37 : ℕ))
        (Workflow.step (V := ℕ) "x" (Except.error (37 : ℕ))
          (initialWorkflowState ℕ)).1).2.1 = 1) :=
  ⟨by decide, step_failure_leaves_state (initialWorkflowState ℕ) "x" 37
    (by decide)⟩

/-- C6: in the retry loop on an always-failing operation, the sleeps before
the second and later attempts follow the delay dispatch — absent delay means
1 second each; a function is applied to attempt - 1 (that is, to k for the
k-th sleep, zero-indexed); a BackoffConfig goes through calculateDelay at
attempt - 1 with the random source; anything else is a fixed duration. -/
theorem retry_delay_dispatch {T E : Type} (e : Nat → E)
    (clock rand : Nat → ℚ) (m : Nat) :
    ((Workflow.retryRun (T := T) m .undef none (fun k => Except.error (e k))
        clock rand).sleeps = List.replicate (m - 1) 1000) ∧
    (∀ f : Nat → ℚ,
      (Workflow.retryRun (T := T) m (.fn f) none
          (fun k => Except.error (e k)) clock rand).sleeps =
        (List.range (m - 1)).map f) ∧
    (∀ c : BackoffConfig,
      (Workflow.retryRun (T := T) m (.backoff c) none
          (fun k => Except.error (e k)) clock rand).sleeps =
        (List.range (m - 1)).map (fun k => calculateDelay c k (rand k))) ∧
    (∀ d : ℚ,
      (Workflow.retryRun (T := T) m (.fixed d) none
          (fun k => Except.error (e k)) clock rand).sleeps =
        List.replicate (m - 1) d) := by
  have hs : ∀ delay : RetryDelay,
      (Workflow.retryRun (T := T) m delay none (fun k => Except.error (e k))
          clock rand).sleeps =
        (List.range (m - 1)).map
          (fun j => computeRetryDelay delay (j + 1) rand) := by
    intro delay
    have h := retryGo_fail_noDur (T := T) m delay e clock rand m 0 0 1 none
      (Nat.zero_add m)
    by_cases hm : m = 0
    · subst hm
      rw [Workflow.retryRun, h]
      simp
    · rw [Workflow.retryRun, h, if_neg hm]
      simp
  refine ⟨?_, fun f => ?_, fun c => ?_, fun d => ?_⟩ <;>
    rw [hs] <;> simp [computeRetryDelay]

/-- C10: retry with maxAttempts 0 never invokes the operation and fails
immediately with a RetryExhaustedError carrying attempts 0 and a null
lastError, regardless of the other options. -/
theorem retry_zero_attempts {T E : Type} (delay : RetryDelay)
    (maxDur : Option ℚ) (op : Nat → Except E T) (clock rand : Nat → ℚ) :
    Workflow.retryRun 0 delay maxDur op clock rand =
      ⟨0, [], Except.error ⟨"unknown", 0, none⟩⟩ := rfl

/-- C7: when the wrapped operation finishes before the deadline its outcome
(success or failure) passes through timeout unchanged; when the deadline
elapses first the caller receives a StepTimeoutError carrying the configured
duration. -/
theorem timeout_race {T E : Type} (d opTime : ℚ) (res : Except E T) :
    (opTime < d →
      (∀ v, res = Except.ok v →
        Workflow.timeoutW d opTime res = Except.ok v) ∧
      (∀ er, res = Except.error er →
        Workflow.timeoutW d opTime res = Except.error (Sum.inr er))) ∧
    (¬ opTime < d →
      Workflow.timeoutW d opTime res =
        Except.error (Sum.inl ⟨"unknown", d⟩)) := by
  refine ⟨fun hlt => ⟨fun v hv => ?_, fun er he => ?_⟩, fun hge => ?_⟩
  · subst hv; simp [Workflow.timeoutW, effectTimeoutFail, hlt]
  · subst he; simp [Workflow.timeoutW, effectTimeoutFail, hlt]
  · simp [Workflow.timeoutW, effectTimeoutFail, hge]

/-- C7 witness at concrete inputs: one race the operation wins, one the
deadline wins. -/
theorem timeout_race_witness :
    ((50 : ℚ) < 100) ∧
    (Workflow.timeoutW (E := Unit) 100 50 (Except.ok (7 : ℕ)) =
      Except.ok 7) ∧
    (¬ (150 : ℚ) < 100) ∧
    (Workflow.timeoutW (T := ℕ) (E := Unit) 100 150 (Except.ok 7) =
      Except.error (Sum.inl ⟨"unknown", 100⟩)) :=
  ⟨by norm_num,
   ((timeout_race 100 50 (Except.ok (7 : ℕ))).1 (by norm_num)).1 7 rfl,
   by norm_num,
   (timeout_race 100 150 (Except.ok (7 : ℕ))).2 (by norm_num)⟩

/-- C8 counterexample: a step whose operation succeeds with undefined is
re-executed on the second call and marked completed again, so completedSteps
holds the same name twice — it is not an ordered set as claimed. -/
theorem completedSteps_duplicate_cex :
    (runSteps
        ([("x", Except.ok none), ("x", Except.ok none)] :
          List (String × Except Unit (Option ℕ)))
        (initialWorkflowState ℕ)).completedSteps = ["x", "x"] ∧
    ¬ (runSteps
        ([("x", Except.ok none), ("x", Except.ok none)] :
          List (String × Except Unit (Option ℕ)))
        (initialWorkflowState ℕ)).completedSteps.Nodup := by
  decide

/-- C8 (amended): completedSteps grows only by appending the completed name,
so names appear in completion order; and for every run in which no operation
succeeds with undefined, each name appears at most once (no duplicates). A
step completing with undefined can be recorded more than once. -/
theorem completedSteps_nodup {V E : Type}
    (calls : List (String × Except E (Option V)))
    (h : ∀ p ∈ calls, p.2 ≠ Except.ok none) :
    (runSteps calls (initialWorkflowState V)).completedSteps.Nodup ∧
    (∀ (s : WorkflowState V) (n : String) (op : Except E (Option V)),
      (Workflow.step n op s).1.completedSteps = s.completedSteps ∨
        (Workflow.step n op s).1.completedSteps = s.completedSteps ++ [n]) := by
  refine ⟨(runSteps_preserves_goodState calls _ ?_ h).1,
    fun s n op => step_completedSteps_append s n op⟩
  exact ⟨List.nodup_nil, by simp [initialWorkflowState, getStepResult]⟩

/-- C8 witness at a concrete input: a run with a repeated name whose
operations return defined values keeps completedSteps duplicate-free. -/
theorem completedSteps_nodup_witness :
    (∀ p ∈ ([("a", Except.ok (some 1)), ("b", Except.ok (some 2)),
             ("a", Except.ok (some 3))] :
               List (String × Except Unit (Option ℕ))),
        p.2 ≠ Except.ok none) ∧
    ((runSteps
        ([("a", Except.ok (some 1)), ("b", Except.ok (some 2)),
          ("a", Except.ok (some 3))] :
            List (String × Except Unit (Option ℕ)))
        (initialWorkflowState ℕ)).completedSteps.Nodup ∧
     (∀ (s : WorkflowState ℕ) (n : String) (op : Except Unit (Option ℕ)),
       (Workflow.step n op s).1.completedSteps = s.completedSteps ∨
         (Workflow.step n op s).1.completedSteps = s.completedSteps ++ [n])) :=
  ⟨by decide, completedSteps_nodup _ (by decide)⟩

/-- C9: a step succeeding with undefined is marked completed and stores an
undefined entry in the results map, yet any step call with that name against
a state whose cached result reads undefined invokes the operation (count 1)
— a cached undefined is indistinguishable from no cached result. -/
theorem step_undefined_result_reruns {V E : Type} (s : WorkflowState V)
    (name : String) (h : name ∉ s.completedSteps) :
    ((Workflow.step (E := E) name (Except.ok (none : Option V)) s).1.completedSteps
        = s.completedSteps ++ [name]) ∧
    ((Workflow.step (E := E) name
        (Except.ok (none : Option V)) s).1.stepResults.lookup name
        = some none) ∧
    (∀ s' : WorkflowState V, getStepResult s' name = none →
      (Workflow.step (E := E) name (Except.ok (none : Option V)) s').2.1 = 1) := by
  have hnc : ¬ (hasCompleted s name ∧ (getStepResult s name).isSome = true) :=
    fun hc => h hc.1
  refine ⟨?_, ?_, fun s' hres => ?_⟩
  · simp [Workflow.step, hnc, markCompleted, setStepResult]
  · simp [Workflow.step, hnc, markCompleted, setStepResult,
      setAssoc_lookup_self]
  · simp [Workflow.step, hres]

/-- C9 witness at a concrete input, including the re-invocation on the state
produced by the first call. -/
theorem step_undefined_result_reruns_witness :
    ("x" ∉ (initialWorkflowState ℕ).completedSteps) ∧
    ((Workflow.step (E := Unit) "x" (Except.ok (none : Option ℕ))
        (initialWorkflowState ℕ)).1.completedSteps
          = (initialWorkflowState ℕ).completedSteps ++ ["x"]) ∧
    ((Workflow.step (E := Unit) "x" (Except.ok (none : Option ℕ))
        (initialWorkflowState ℕ)).1.stepResults.lookup "x" = some none) ∧
    ((Workflow.step (E := Unit) "x" (Except.ok (none : Option ℕ))
        (Workflow.step (E := Unit) "x" (Except.ok none)
          (initialWorkflowState ℕ)).1).2.1 = 1) :=
  have h := step_undefined_result_reruns (E := Unit)
    (initialWorkflowState ℕ) "x" (by decide)
  ⟨by decide, h.1, h.2.1, h.2.2 _ (by decide)⟩
